import Mathlib

/-!
Shallow embedding of the query-and-cache core of the gym-facility-search
service (`src/facilities/facilities.service.ts`, current revision: the one
with page/limit clamping, the sort-field allow-list, normalised cache
parameters and amenity match modes), together with the parts of its
environment the service relies on: the Mongo-style document store
(`find`/`countDocuments`/`findOne` with `$regex`/`$all`/`$in`/`$size`
filters over the seeded facility collection) and the cache backend
(`get`/`set`).

Modelling conventions:
* JavaScript numbers that the service only ever treats as integers
  (page, limit, counts, TTLs, sort direction) are modelled as `Int`
  (exact for these ranges).
* Optional DTO fields are `Option`; the destructuring defaults of the
  source are applied with `Option.getD` exactly where the source applies
  them.
* JavaScript truthiness of `name` (a string: `undefined` and `""` are
  falsy) and of `amenities?.length` is made explicit in `strTruthy` and
  `listLenTruthy`.
* A rejected promise is modelled as `Except.error`; the service code has
  no try/catch, so a cache-backend failure aborts the whole call, exactly
  as `await` on a rejecting promise does.
* Geographic coordinates are carried along as integers; no claim performs
  arithmetic on them.
* The facility record's amenity array (named `facilities` in the Mongo
  schema) is the `amenities` field of the `Facility` structure.
-/

namespace FacilitySearch

/-! ## Data model -/

/-- `location {latitude, longitude}` of a facility. -/
structure GeoLocation where
  latitude : Int
  longitude : Int
deriving DecidableEq, Repr

/-- The public projection of a facility record: exactly the fields kept by
`publicFieldsOnly()` (`-_id -__v -createdAt -updatedAt`). -/
structure Facility where
  id : String
  name : String
  address : String
  location : GeoLocation
  amenities : List String
deriving DecidableEq, Repr

/-- A record as stored in the collection: the public projection plus the
internal storage fields (`_id`, `__v`, `createdAt`, `updatedAt`) that the
service's projection strips. -/
structure StoredRecord where
  pub : Facility
  internalId : String
  version : Int
  createdAt : Int
  updatedAt : Int
deriving DecidableEq, Repr

/-- `.select('-_id -__v -createdAt -updatedAt')`: drop the internal fields. -/
def projectPublic (r : StoredRecord) : Facility := r.pub

/-- Amenity match mode (`'all' | 'any' | 'exact'`).  The source literal
`'exact'` is rendered `exactly` because `exact` is reserved inside Lean
tactic blocks. -/
inductive MatchMode where
  | all
  | any
  | exactly
deriving DecidableEq, Repr

/-- The string literal the source uses for each mode. -/
def MatchMode.toLiteral : MatchMode → String
  | .all => "all"
  | .any => "any"
  | .exactly => "exact"

/-- `GetFacilitiesDto`: the raw, per-request query descriptor.  All fields
are optional; the service applies defaults when destructuring. -/
structure GetFacilitiesDto where
  name : Option String := none
  amenities : Option (List String) := none
  amenityMatchMode : Option MatchMode := none
  page : Option Int := none
  limit : Option Int := none
  sortBy : Option String := none
  sortOrder : Option String := none
deriving DecidableEq, Repr

/-- Service configuration resolved at construction
(`DEFAULT_PAGE_SIZE ?? 20`, `MAX_PAGE_SIZE ?? 100`). -/
structure ServiceConfig where
  defaultPageSize : Int
  maxPageSize : Int
deriving DecidableEq, Repr

/-- Pagination metadata (`meta` of `PaginatedFacilitiesResponseDto`). -/
structure PaginationMeta where
  total : Int
  page : Int
  limit : Int
  totalPages : Int
  hasNextPage : Bool
  hasPreviousPage : Bool
deriving DecidableEq, Repr

/-- `PaginatedFacilitiesResponseDto`. -/
structure PaginatedResult where
  data : List Facility
  meta : PaginationMeta
deriving DecidableEq, Repr

/-! ## JavaScript truthiness and numeric helpers -/

/-- Truthiness of an optional string: `undefined` and `""` are falsy. -/
def strTruthy : Option String → Bool
  | none => false
  | some s => !s.isEmpty

/-- Truthiness of `xs?.length` for an optional array: `undefined` and the
empty array are falsy. -/
def listLenTruthy : Option (List String) → Bool
  | none => false
  | some l => !l.isEmpty

/-- `Math.ceil(a / b)` for integers with `b ≥ 1` (the only way the service
divides): floor division of `a + b - 1` by `b`. -/
def jsCeilDiv (a b : Int) : Int := (a + b - 1) / b

/-! ## Regular-expression escaping and the literal fragment of `$regex`

`escapeRegex` is `value.replace(/[.*+?^${}()|[\]\\]/g, '\\$&')`.  The
matchers below give semantics to exactly the *literal* fragment of
regular expressions — patterns in which every metacharacter is escaped —
which is the only kind of pattern the service ever constructs (proved in
`parseLiteralPattern_escape`).  A pattern containing an unescaped
metacharacter has genuine pattern-operator semantics, which
`parseLiteralPattern` reports as `none`. -/

/-- Left curly-bracket character. -/
def lcurly : Char := Char.ofNat 123

/-- Right curly-bracket character. -/
def rcurly : Char := Char.ofNat 125

/-- The character class `[.*+?^${}()|[\]\\]` of the source's `escapeRegex`. -/
def regexMetaChars : List Char :=
  ['.', '*', '+', '?', '^', '$', lcurly, rcurly, '(', ')', '|', '[', ']', '\\']

/-- Membership in the escaped character class. -/
def isRegexMeta (c : Char) : Bool := regexMetaChars.contains c

/-- Character-level body of `escapeRegex`: prepend a backslash to every
metacharacter. -/
def escapeRegexChars : List Char → List Char
  | [] => []
  | c :: cs => (if isRegexMeta c then ['\\', c] else [c]) ++ escapeRegexChars cs

/-- `escapeRegex(value)`. -/
def escapeRegex (s : String) : String := String.mk (escapeRegexChars s.data)

/-- Parse a pattern that denotes a literal character sequence: ordinary
characters stand for themselves, `\c` for a metacharacter `c` stands for
`c`, and anything else (an unescaped metacharacter, a class escape such
as `\d`, or a dangling backslash) is not a literal pattern. -/
def parseLiteralPattern : List Char → Option (List Char)
  | [] => some []
  | c :: rest =>
      if c = '\\' then
        match rest with
        | [] => none
        | c2 :: rest2 =>
            if isRegexMeta c2 then (parseLiteralPattern rest2).map (c2 :: ·) else none
      else if isRegexMeta c then none
      else (parseLiteralPattern rest).map (c :: ·)

/-- ASCII lower-casing of a character list, modelling the `i` flag /
`$options: 'i'` (simple case folding; the catalog data is ASCII). -/
def lowerChars (l : List Char) : List Char := l.map Char.toLower

/-- `pat` occurs as a contiguous substring of `hay`. -/
def charsContain (hay pat : List Char) : Bool :=
  match hay with
  | [] => pat.isEmpty
  | c :: t => pat.isPrefixOf (c :: t) || charsContain t pat

/-- Evaluate an unanchored `$regex` with `$options: 'i'` against a string,
for literal patterns (the only patterns the service builds). -/
def regexSearchCI (pattern : String) (s : String) : Bool :=
  match parseLiteralPattern pattern.data with
  | some lits => charsContain (lowerChars s.data) (lowerChars lits)
  | none => false

/-- Evaluate an anchored pattern `^…$` with the `i` flag against a string,
for literal bodies: full-string case-insensitive comparison.  This is the
semantics of the per-amenity regexes `new RegExp(`^` + escaped + `$`, 'i')`. -/
def regexFullCI (pattern : String) (s : String) : Bool :=
  match pattern.data with
  | '^' :: rest =>
      if rest.getLast? = some '$' then
        match parseLiteralPattern rest.dropLast with
        | some lits => lowerChars lits == lowerChars s.data
        | none => false
      else false
  | _ => false  -- no leading anchor: not a pattern the service builds

/-! ## Filter translator (`buildMongoFilter`, `createCaseInsensitiveRegex`,
`buildSortOptions`) -/

/-- `{ $regex: <pattern>, $options: 'i' }` attached to the `name` field. -/
structure NameClause where
  pattern : String
deriving DecidableEq, Repr

/-- The amenity clause of the translated filter: `$all` over the anchored
regexes, `$in` over them, or (`exact` mode) `$and` of `$all` and
`$size: amenities.length`. -/
inductive AmenityClause where
  | allOf (patterns : List String)
  | anyOf (patterns : List String)
  | exactOf (patterns : List String) (size : Nat)
deriving DecidableEq, Repr

/-- The backend filter produced by `buildMongoFilter`. -/
structure MongoFilter where
  nameClause : Option NameClause := none
  amenityClause : Option AmenityClause := none
deriving DecidableEq, Repr

/-- The anchored, escaped, case-insensitive regex built for one requested
amenity. -/
def amenityPattern (a : String) : String := "^" ++ escapeRegex a ++ "$"

/-- `buildMongoFilter(name?, amenities?, amenityMatchMode)`. -/
def buildMongoFilter (name : Option String) (amenities : Option (List String))
    (mode : MatchMode) : MongoFilter :=
  { nameClause :=
      match name with
      | some s => if s.isEmpty then none else some ⟨escapeRegex s⟩
      | none => none
    amenityClause :=
      match amenities with
      | some l =>
          if l.isEmpty then none
          else
            let pats := l.map amenityPattern
            match mode with
            | .all => some (.allOf pats)
            | .any => some (.anyOf pats)
            | .exactly => some (.exactOf pats l.length)
      | none => none }

/-- A facility's amenity array satisfies the amenity clause.  `$all` with
regexes: every regex matches some element; `$in`: some element matches
some regex; `$size`: the array has exactly the given length. -/
def matchesAmenityClause (c : AmenityClause) (amens : List String) : Bool :=
  match c with
  | .allOf pats => pats.all (fun p => amens.any (fun e => regexFullCI p e))
  | .anyOf pats => amens.any (fun e => pats.any (fun p => regexFullCI p e))
  | .exactOf pats n =>
      pats.all (fun p => amens.any (fun e => regexFullCI p e)) && amens.length == n

/-- A facility satisfies the translated filter (conjunction of the name
clause and the amenity clause). -/
def matchesFilter (f : MongoFilter) (fac : Facility) : Bool :=
  (match f.nameClause with
   | none => true
   | some nc => regexSearchCI nc.pattern fac.name) &&
  (match f.amenityClause with
   | none => true
   | some c => matchesAmenityClause c fac.amenities)

/-- `ALLOWED_SORT_FIELDS = ['name', 'city', 'rating']`. -/
def ALLOWED_SORT_FIELDS : List String := ["name", "city", "rating"]

/-- The sort specification `{ [field]: 1 | -1 }`. -/
structure SortSpec where
  field : String
  direction : Int
deriving DecidableEq, Repr

/-- `buildSortOptions(sortBy, sortOrder)`: restrict the field to the
allow-list (silently substituting `'name'`), map `'asc'` to `1` and
anything else to `-1`. -/
def buildSortOptions (sortByField sortOrder : String) : SortSpec :=
  { field := if ALLOWED_SORT_FIELDS.contains sortByField then sortByField else "name"
    direction := if sortOrder == "asc" then 1 else -1 }

/-! ## Store model (`find`/`countDocuments`/`findOne` on the facility
collection) -/

/-- The value a record exposes for a sort field.  Only `name` exists on
the schema; the other allow-listed fields are absent on every record, so
sorting by them compares equal everywhere (stable order). -/
def sortFieldVal (field : String) (f : Facility) : Option String :=
  if field == "name" then some f.name else none

/-- Record comparison induced by a sort specification. -/
def recordLE (spec : SortSpec) (a b : Facility) : Prop :=
  match sortFieldVal spec.field a, sortFieldVal spec.field b with
  | some x, some y => if spec.direction = 1 then x ≤ y else y ≤ x
  | _, _ => True

instance (spec : SortSpec) : DecidableRel (recordLE spec) := by
  intro a b
  unfold recordLE
  rcases sortFieldVal spec.field a with _ | x <;>
    rcases sortFieldVal spec.field b with _ | y <;> simp <;> infer_instance

/-- `countDocuments(filter)`: the number of matching records. -/
def storeCount (db : List StoredRecord) (f : MongoFilter) : Nat :=
  (db.filter (fun r => matchesFilter f r.pub)).length

/-- `find(filter).select(projection).sort(spec).skip(n).limit(m).lean()`:
matching records, sorted, windowed, projected. -/
def storeFind (db : List StoredRecord) (f : MongoFilter) (spec : SortSpec)
    (skip limit : Nat) : List Facility :=
  ((((db.filter (fun r => matchesFilter f r.pub)).map projectPublic).insertionSort
      (recordLE spec)).drop skip).take limit

/-- `findOne({ id })`: the first record whose public `id` equals the
requested one. -/
def storeFindOne (db : List StoredRecord) (id : String) : Option StoredRecord :=
  db.find? (fun r => r.pub.id == id)

/-! ## Cache key builder (`generateCacheKey`, `normaliseParams`) -/

/-- A parameter value of the key-builder's parameter map, covering the
shapes the service actually passes: strings, numbers, string arrays, and
`undefined` for absent optional fields. -/
inductive ParamValue where
  | str (s : String)
  | num (n : Int)
  | arr (l : List String)
  | undef
deriving DecidableEq, Repr

/-- JavaScript default sort of a string array (`[...value].sort()`):
lexicographic order. -/
def sortStrings (l : List String) : List String :=
  l.insertionSort (· ≤ ·)

/-- `normaliseParams` on one value: sort array values, keep the rest. -/
def normaliseValue : ParamValue → ParamValue
  | .arr l => .arr (sortStrings l)
  | v => v

/-- Template-literal stringification `${value}` of a parameter value:
arrays join with commas, `undefined` prints as `"undefined"`. -/
def ParamValue.jsToString : ParamValue → String
  | .str s => s
  | .num n => toString n
  | .arr l => String.intercalate "," l
  | .undef => "undefined"

/-- Order on parameter entries by key (`Object.keys(...).sort()`). -/
def entryKeyLE (a b : String × ParamValue) : Prop := a.1 ≤ b.1

instance : DecidableRel entryKeyLE :=
  fun a b => inferInstanceAs (Decidable (a.1 ≤ b.1))

/-- `generateCacheKey(prefix, params)`: normalise the values, sort the
entries by key, serialize as `prefix:key1:val1|key2:val2|...`. -/
def generateCacheKey (pre : String) (params : List (String × ParamValue)) : String :=
  let normalised := params.map (fun kv => (kv.1, normaliseValue kv.2))
  let sortedParams := normalised.insertionSort entryKeyLE
  pre ++ ":" ++ String.intercalate "|" (sortedParams.map (fun kv => kv.1 ++ ":" ++ kv.2.jsToString))

/-! ## Cache policy (`shouldCacheQuery`, `getCacheTTL`) and TTL tiers -/

/-- TTL for a single facility looked up by id (tier C). -/
def CACHE_TTL_FACILITY_BY_ID : Int := 3600

/-- TTL for an unfiltered listing (tier A). -/
def CACHE_TTL_LIST_NO_FILTER : Int := 1800

/-- TTL for a filtered listing (tier B). -/
def CACHE_TTL_LIST_WITH_FILTER : Int := 600

/-- `shouldCacheQuery(name?, amenities?, page)`: unfiltered queries are
eligible through page 3, filtered ones through page 2, deeper pages never. -/
def shouldCacheQuery (name : Option String) (amenities : Option (List String))
    (page : Int) : Bool :=
  if !strTruthy name && !listLenTruthy amenities && page ≤ 3 then true
  else if (strTruthy name || listLenTruthy amenities) && page ≤ 2 then true
  else false

/-- `getCacheTTL(name?, amenities?)`: short TTL for filtered listings,
long TTL for unfiltered ones. -/
def getCacheTTL (name : Option String) (amenities : Option (List String)) : Int :=
  if strTruthy name || listLenTruthy amenities then CACHE_TTL_LIST_WITH_FILTER
  else CACHE_TTL_LIST_NO_FILTER

/-! ## Effective (clamped) paging values and the cache parameter map -/

/-- `safePage = Math.max(1, page)` after the destructuring default `page = 1`. -/
def effPage (q : GetFacilitiesDto) : Int := max 1 (q.page.getD 1)

/-- `limit = Math.min(Math.max(1, requestedLimit), maxPageSize)` after the
destructuring default `requestedLimit = defaultPageSize`. -/
def effLimit (cfg : ServiceConfig) (q : GetFacilitiesDto) : Int :=
  min (max 1 (q.limit.getD cfg.defaultPageSize)) cfg.maxPageSize

/-- The `cacheParams` object of `getFacilities`: the normalized descriptor
(resolved defaults, clamped page and limit). -/
def listCacheParams (cfg : ServiceConfig) (q : GetFacilitiesDto) :
    List (String × ParamValue) :=
  [("name", q.name.elim ParamValue.undef ParamValue.str),
   ("amenities", q.amenities.elim ParamValue.undef ParamValue.arr),
   ("amenityMatchMode", ParamValue.str (q.amenityMatchMode.getD .all).toLiteral),
   ("page", ParamValue.num (effPage q)),
   ("limit", ParamValue.num (effLimit cfg q)),
   ("sortBy", ParamValue.str (q.sortBy.getD "name")),
   ("sortOrder", ParamValue.str (q.sortOrder.getD "asc"))]

/-- The key of the cache *read* at the start of a listing request: the
first `generateCacheKey('facilities', cacheParams)` call site. -/
def readCacheKey (cfg : ServiceConfig) (q : GetFacilitiesDto) : String :=
  generateCacheKey "facilities" (listCacheParams cfg q)

/-- The key of the cache *write* after a miss: the second
`generateCacheKey('facilities', cacheParams)` call site. -/
def writeCacheKey (cfg : ServiceConfig) (q : GetFacilitiesDto) : String :=
  generateCacheKey "facilities" (listCacheParams cfg q)

/-- The key of a single-facility lookup: `generateCacheKey('facility', { id })`. -/
def facilityCacheKey (id : String) : String :=
  generateCacheKey "facility" [("id", ParamValue.str id)]

/-! ## Cache backend

The backend is a state machine whose operations may fail (a rejecting
promise).  The service trusts `get`/`set` blindly — there is no try/catch
around either call site — so a backend failure aborts the request. -/

/-- An abstract cache backend over state type `σ` storing values of type `α`. -/
structure CacheBackend (σ : Type) (α : Type) where
  get : σ → String → Except Unit (Option α)
  set : σ → String → α → Int → Except Unit σ

/-- Association-list lookup (most recent write first). -/
def assocGet {α : Type} (st : List (String × α)) (k : String) : Option α :=
  (st.find? (fun kv => kv.1 == k)).map (·.2)

/-- A healthy in-memory cache backend: `get` looks up, `set` records the
entry (the TTL only governs expiry, which no claim observes). -/
def healthyCache (α : Type) : CacheBackend (List (String × α)) α :=
  { get := fun st k => .ok (assocGet st k)
    set := fun st k v _ttl => .ok ((k, v) :: st) }

/-- A cache backend whose reads (and writes) reject, as when the backing
Redis is down. -/
def downCache (α : Type) : CacheBackend Unit α :=
  { get := fun _ _ => .error ()
    set := fun _ _ _ _ => .error () }

/-- A cache backend whose reads succeed but whose writes reject. -/
def writeFailCache (α : Type) : CacheBackend (List (String × α)) α :=
  { get := fun st k => .ok (assocGet st k)
    set := fun _ _ _ _ => .error () }

/-! ## Orchestrator (`getFacilities`, `getFacilityById`) -/

/-- The typed error outcomes a request can end in. -/
inductive ApiError where
  | notFound (message : String)
  | cacheFailure
deriving DecidableEq, Repr

/-- The pure query execution of `getFacilities` on a cache miss: translate
the filter, run `find` and `countDocuments` over the window
`skip = (safePage - 1) * limit`, `limit`, and assemble the paginated
result with `totalPages = Math.max(1, Math.ceil(totalCount / limit))`,
`hasNextPage = safePage < totalPages`, `hasPreviousPage = safePage > 1`. -/
def executeQuery (cfg : ServiceConfig) (db : List StoredRecord)
    (q : GetFacilitiesDto) : PaginatedResult :=
  let safePage := effPage q
  let limit := effLimit cfg q
  let mongoFilter := buildMongoFilter q.name q.amenities (q.amenityMatchMode.getD .all)
  let offset := (safePage - 1) * limit
  let sortOptions := buildSortOptions (q.sortBy.getD "name") (q.sortOrder.getD "asc")
  let facilities := storeFind db mongoFilter sortOptions offset.toNat limit.toNat
  let totalCount : Int := storeCount db mongoFilter
  let totalPages := max 1 (jsCeilDiv totalCount limit)
  { data := facilities
    meta :=
      { total := totalCount
        page := safePage
        limit := limit
        totalPages := totalPages
        hasNextPage := decide (safePage < totalPages)
        hasPreviousPage := decide (safePage > 1) } }

/-- `getFacilities(queryDto)`: check eligibility; if eligible, read the
cache (a backend failure propagates — the source has no try/catch) and
return a hit verbatim; on a miss run the query and, if eligible, write the
result back under the write-site key with the policy TTL. -/
def getFacilities {σ : Type} (be : CacheBackend σ PaginatedResult) (st : σ)
    (cfg : ServiceConfig) (db : List StoredRecord) (q : GetFacilitiesDto) :
    Except ApiError (PaginatedResult × σ) :=
  let safePage := effPage q
  let shouldCache := shouldCacheQuery q.name q.amenities safePage
  let runAndCache : Except ApiError (PaginatedResult × σ) :=
    let paginatedResult := executeQuery cfg db q
    if shouldCache then
      match be.set st (writeCacheKey cfg q) paginatedResult (getCacheTTL q.name q.amenities) with
      | .error _ => .error .cacheFailure
      | .ok st' => .ok (paginatedResult, st')
    else .ok (paginatedResult, st)
  if shouldCache then
    match be.get st (readCacheKey cfg q) with
    | .error _ => .error .cacheFailure
    | .ok (some cached) => .ok (cached, st)
    | .ok none => runAndCache
  else runAndCache

/-- `getFacilityById(id)`: cache read by id key (failure propagates), then
`findOne({ id })`; absent records raise `NotFoundException`, present ones
are projected, cached with the tier-C TTL, and returned. -/
def getFacilityById {σ : Type} (be : CacheBackend σ Facility) (st : σ)
    (db : List StoredRecord) (id : String) : Except ApiError (Facility × σ) :=
  match be.get st (facilityCacheKey id) with
  | .error _ => .error .cacheFailure
  | .ok (some cached) => .ok (cached, st)
  | .ok none =>
    match storeFindOne db id with
    | none => .error (.notFound ("Facility with ID \"" ++ id ++ "\" not found"))
    | some r =>
      let facilityDto := projectPublic r
      match be.set st (facilityCacheKey id) facilityDto CACHE_TTL_FACILITY_BY_ID with
      | .error _ => .error .cacheFailure
      | .ok st' => .ok (facilityDto, st')

/-! ## Concrete instances used by the witnesses -/

/-- The default configuration (`DEFAULT_PAGE_SIZE = 20`, `MAX_PAGE_SIZE = 100`). -/
def defaultConfig : ServiceConfig := { defaultPageSize := 20, maxPageSize := 100 }

/-- A sample catalog record. -/
def sampleRecord : StoredRecord :=
  { pub :=
      { id := "facility-001"
        name := "City Fitness Central"
        address := "123 Market St, Sydney, NSW 2000"
        location := { latitude := -33, longitude := 151 }
        amenities := ["Pool", "Gym"] }
    internalId := "652f0001"
    version := 0
    createdAt := 0
    updatedAt := 0 }

/-- The always-eligible empty descriptor: every field takes its default. -/
def emptyQuery : GetFacilitiesDto := {}

/-- A descriptor with out-of-range raw paging values. -/
def extremeQuery : GetFacilitiesDto := { page := some (-7), limit := some 1000 }

/-- Facility with amenity set `{Pool, Gym}` from the claim example. -/
def exampleFacilityA : Facility :=
  { id := "ex-a", name := "Alpha Gym", address := "1 A St"
    location := { latitude := 0, longitude := 0 }, amenities := ["Pool", "Gym"] }

/-- Facility with amenity set `{Pool, Gym, Sauna}` from the claim example. -/
def exampleFacilityB : Facility :=
  { id := "ex-b", name := "Beta Gym", address := "2 B St"
    location := { latitude := 0, longitude := 0 }, amenities := ["Pool", "Gym", "Sauna"] }

/-- Facility with amenity set `{Gym}` from the claim example. -/
def exampleFacilityC : Facility :=
  { id := "ex-c", name := "Gamma Gym", address := "3 C St"
    location := { latitude := 0, longitude := 0 }, amenities := ["Gym"] }

/-- The three-facility catalog of the amenity-match-mode example. -/
def exampleCatalog : List Facility :=
  [exampleFacilityA, exampleFacilityB, exampleFacilityC]

/-- Pagination metadata is internally consistent the way the service
computes it: `totalPages` is the ceiling of `total / limit` floored at 1,
`hasNextPage` is `page < totalPages`, `hasPreviousPage` is `page > 1`. -/
def metaLawful (r : PaginatedResult) : Prop :=
  r.meta.totalPages = max 1 (jsCeilDiv r.meta.total r.meta.limit) ∧
  r.meta.hasNextPage = decide (r.meta.page < r.meta.totalPages) ∧
  r.meta.hasPreviousPage = decide (r.meta.page > 1)

/-- Case-insensitive equality of two strings (ASCII simple folding), the
specification-side reading of "the amenity is present, case-insensitively". -/
def ciEq (a b : String) : Prop := lowerChars a.data = lowerChars b.data

/-! ## Helper lemmas -/

/-- Escaping always produces a pattern of the literal fragment, and parsing
it back recovers exactly the original characters. -/
theorem parseLiteralPattern_escape (l : List Char) :
    parseLiteralPattern (escapeRegexChars l) = some l := by
  induction l with
  | nil => rfl
  | cons c cs ih =>
    by_cases h : isRegexMeta c = true
    · simp [escapeRegexChars, h, parseLiteralPattern, ih]
    · have hc : c ≠ '\\' := by
        intro e
        subst e
        simp [isRegexMeta, regexMetaChars] at h
      have he : escapeRegexChars (c :: cs) = c :: escapeRegexChars cs := by
        simp [escapeRegexChars, h]
      rw [he, parseLiteralPattern.eq_def]
      simp [hc, h, ih]

/-- The anchored per-amenity regex `^escaped$` with the `i` flag tests
case-insensitive string equality with the original amenity. -/
theorem regexFullCI_amenityPattern (a e : String) :
    regexFullCI (amenityPattern a) e = (lowerChars a.data == lowerChars e.data) := by
  have hdata : (amenityPattern a).data = '^' :: (escapeRegexChars a.data ++ ['$']) := by
    simp [amenityPattern, escapeRegex]
  simp [regexFullCI, hdata, parseLiteralPattern_escape]

/-- The unanchored escaped `$regex` with `$options: 'i'` tests
case-insensitive substring containment of the original search term. -/
theorem regexSearchCI_escape (s t : String) :
    regexSearchCI (escapeRegex s) t = charsContain (lowerChars t.data) (lowerChars s.data) := by
  simp [regexSearchCI, escapeRegex, parseLiteralPattern_escape]

/-- JavaScript's default array sort maps permuted inputs to the same list. -/
theorem sortStrings_perm {l l' : List String} (h : l.Perm l') :
    sortStrings l = sortStrings l' := by
  have s1 : (sortStrings l).Sorted (· ≤ ·) := List.sorted_insertionSort _ l
  have s2 : (sortStrings l').Sorted (· ≤ ·) := List.sorted_insertionSort _ l'
  have hp : (sortStrings l).Perm (sortStrings l') :=
    (List.perm_insertionSort _ l).trans (h.trans (List.perm_insertionSort _ l').symm)
  exact List.eq_of_perm_of_sorted hp s1 s2

/-- Looking up the key just written returns the written value. -/
theorem assocGet_cons_self {α : Type} (k : String) (v : α) (st : List (String × α)) :
    assocGet ((k, v) :: st) k = some v := by
  simp [assocGet, List.find?]

/-- A successful association-list lookup comes from an entry of the list. -/
theorem mem_of_assocGet_some {α : Type} {st : List (String × α)} {k : String} {v : α}
    (h : assocGet st k = some v) : ∃ kv ∈ st, kv.2 = v := by
  simp only [assocGet, Option.map_eq_some'] at h
  obtain ⟨kv, hfind, hv⟩ := h
  exact ⟨kv, List.mem_of_find?_eq_some hfind, hv⟩

/-- Closed form of a listing request against the healthy cache backend:
the three control paths of the read-through state machine. -/
theorem getFacilities_healthy_eq (st : List (String × PaginatedResult))
    (cfg : ServiceConfig) (db : List StoredRecord) (q : GetFacilitiesDto) :
    getFacilities (healthyCache _) st cfg db q =
      if shouldCacheQuery q.name q.amenities (effPage q) then
        match assocGet st (readCacheKey cfg q) with
        | some cached => .ok (cached, st)
        | none =>
            .ok (executeQuery cfg db q, (writeCacheKey cfg q, executeQuery cfg db q) :: st)
      else .ok (executeQuery cfg db q, st) := by
  cases hsc : shouldCacheQuery q.name q.amenities (effPage q) <;>
    simp only [getFacilities, healthyCache, hsc, if_false, if_true, Bool.false_eq_true,
      reduceIte]
  cases assocGet st (readCacheKey cfg q) <;> rfl

/-- Results computed from the store always carry lawful pagination
metadata, because the executor builds the fields from these formulas. -/
theorem metaLawful_executeQuery (cfg : ServiceConfig) (db : List StoredRecord)
    (q : GetFacilitiesDto) : metaLawful (executeQuery cfg db q) :=
  ⟨rfl, rfl, rfl⟩

/-! ## Claim theorems -/

/-- C1 — code bug.  The specification requires that a cache-backend
failure on `get` or `set` must never propagate: the orchestrator should
degrade to the store-sourced result.  The source has no try/catch around
either `cacheManager` call, so a rejecting backend rejects the whole
request: with a record in the store and the fully eligible default query,
a failing `get` (and likewise a failing `set` after a miss, and a failing
`get` on the by-id path) turns the call into an error even though the
correct page was computable from the store (last conjunct). -/
theorem cacheErrorPropagates_c1 :
    getFacilities (downCache _) () defaultConfig [sampleRecord] emptyQuery =
      .error .cacheFailure ∧
    getFacilities (writeFailCache _) [] defaultConfig [sampleRecord] emptyQuery =
      .error .cacheFailure ∧
    getFacilityById (downCache _) () [sampleRecord] "facility-001" = .error .cacheFailure ∧
    (executeQuery defaultConfig [sampleRecord] emptyQuery).data = [sampleRecord.pub] :=
  ⟨rfl, rfl, rfl, rfl⟩

/-- C2 — key building is deterministic and insensitive to the order of the
amenities array: `normaliseParams` sorts array values and the entries are
serialized in sorted key order, so any permutation of the requested
amenities produces the identical listing cache key. -/
theorem cacheKeyCanonical_c2 (cfg : ServiceConfig) (q : GetFacilitiesDto)
    (l l' : List String) (hperm : l.Perm l') :
    readCacheKey cfg { q with amenities := some l } =
      readCacheKey cfg { q with amenities := some l' } := by
  have hs : sortStrings l = sortStrings l' := sortStrings_perm hperm
  simp [readCacheKey, generateCacheKey, listCacheParams, normaliseValue, hs,
    effPage, effLimit]

/-- C2 witness: the keys for `amenities = ["Pool","Gym"]` and
`amenities = ["Gym","Pool"]` coincide. -/
theorem cacheKeyCanonical_c2_witness :
    (["Pool", "Gym"] : List String).Perm ["Gym", "Pool"] ∧
    readCacheKey defaultConfig { emptyQuery with amenities := some ["Pool", "Gym"] } =
      readCacheKey defaultConfig { emptyQuery with amenities := some ["Gym", "Pool"] } :=
  ⟨by decide, cacheKeyCanonical_c2 defaultConfig emptyQuery _ _ (by decide)⟩

/-- C3 — every result a listing request returns (cached results included,
assuming the cache holds only results the service itself produced) has
`totalPages = max(1, ceil(total / limit))`, `hasNextPage = page < totalPages`
and `hasPreviousPage = page > 1`; for `total = 45, limit = 20` the formula
gives `totalPages = 3`, and page 3 has no next page but a previous page. -/
theorem paginationMeta_c3 (st : List (String × PaginatedResult)) (cfg : ServiceConfig)
    (db : List StoredRecord) (q : GetFacilitiesDto) (r : PaginatedResult)
    (st' : List (String × PaginatedResult))
    (hwf : ∀ kv ∈ st, metaLawful kv.2)
    (h : getFacilities (healthyCache _) st cfg db q = .ok (r, st')) :
    metaLawful r ∧
    max 1 (jsCeilDiv 45 20) = 3 ∧
    decide ((3 : Int) < max 1 (jsCeilDiv 45 20)) = false ∧
    decide ((3 : Int) > 1) = true := by
  refine ⟨?_, by decide, by decide, by decide⟩
  rw [getFacilities_healthy_eq] at h
  by_cases hsc : shouldCacheQuery q.name q.amenities (effPage q) = true
  · rw [if_pos hsc] at h
    cases hget : assocGet st (readCacheKey cfg q) with
    | some v =>
        rw [hget] at h
        obtain ⟨hr, _⟩ := Prod.mk.injEq .. ▸ Except.ok.injEq .. ▸ h
        obtain ⟨kv, hkv, hv⟩ := mem_of_assocGet_some hget
        exact hr ▸ hv ▸ hwf kv hkv
    | none =>
        rw [hget] at h
        obtain ⟨hr, _⟩ := Prod.mk.injEq .. ▸ Except.ok.injEq .. ▸ h
        exact hr ▸ metaLawful_executeQuery cfg db q
  · rw [if_neg hsc] at h
    obtain ⟨hr, _⟩ := Prod.mk.injEq .. ▸ Except.ok.injEq .. ▸ h
    exact hr ▸ metaLawful_executeQuery cfg db q

/-- C3 witness: a concrete run against the healthy cache starting from the
empty cache state returns lawful metadata. -/
theorem paginationMeta_c3_witness :
    (∀ kv ∈ ([] : List (String × PaginatedResult)), metaLawful kv.2) ∧
    metaLawful (executeQuery defaultConfig [sampleRecord] emptyQuery) :=
  ⟨by simp,
   (paginationMeta_c3 [] defaultConfig [sampleRecord] emptyQuery
      (executeQuery defaultConfig [sampleRecord] emptyQuery)
      ((writeCacheKey defaultConfig emptyQuery,
        executeQuery defaultConfig [sampleRecord] emptyQuery) :: [])
      (by simp) rfl).1⟩

/-- C4 — for a non-empty requested amenities list the translated filter
realises the three match modes: ALL keeps exactly the facilities whose
amenity set contains every requested amenity case-insensitively, ANY those
containing at least one, EXACT those containing all with amenity-set size
equal to the requested count; over the catalog `{Pool,Gym}`,
`{Pool,Gym,Sauna}`, `{Gym}` the query `["Pool","Gym"]` keeps the first two
under ALL, all three under ANY and only the first under EXACT. -/
theorem amenityMatchModes_c4 (l : List String) (hne : l ≠ []) (f : Facility) :
    (matchesFilter (buildMongoFilter none (some l) .all) f = true ↔
      ∀ a ∈ l, ∃ e ∈ f.amenities, ciEq a e) ∧
    (matchesFilter (buildMongoFilter none (some l) .any) f = true ↔
      ∃ a ∈ l, ∃ e ∈ f.amenities, ciEq a e) ∧
    (matchesFilter (buildMongoFilter none (some l) .exactly) f = true ↔
      ((∀ a ∈ l, ∃ e ∈ f.amenities, ciEq a e) ∧ f.amenities.length = l.length)) ∧
    (exampleCatalog.filter
        (matchesFilter (buildMongoFilter none (some ["Pool", "Gym"]) .all))).map Facility.id =
      ["ex-a", "ex-b"] ∧
    (exampleCatalog.filter
        (matchesFilter (buildMongoFilter none (some ["Pool", "Gym"]) .any))).map Facility.id =
      ["ex-a", "ex-b", "ex-c"] ∧
    (exampleCatalog.filter
        (matchesFilter (buildMongoFilter none (some ["Pool", "Gym"]) .exactly))).map Facility.id =
      ["ex-a"] := by
  have hl : l.isEmpty = false := by simpa [List.isEmpty_iff] using hne
  refine ⟨?_, ?_, ?_, by decide, by decide, by decide⟩ <;>
    simp [matchesFilter, buildMongoFilter, hl, matchesAmenityClause,
      regexFullCI_amenityPattern, ciEq]
  exact ⟨fun ⟨e, he, a, ha, hm⟩ => ⟨a, ha, e, he, hm⟩,
    fun ⟨a, ha, e, he, hm⟩ => ⟨e, he, a, ha, hm⟩⟩

/-- C4 witness: instantiation at the `["Pool","Gym"]` request and the
`{Pool,Gym,Sauna}` facility of the example. -/
theorem amenityMatchModes_c4_witness :
    (["Pool", "Gym"] : List String) ≠ [] ∧
    (matchesFilter (buildMongoFilter none (some ["Pool", "Gym"]) .all) exampleFacilityB = true ↔
      ∀ a ∈ (["Pool", "Gym"] : List String), ∃ e ∈ exampleFacilityB.amenities, ciEq a e) :=
  ⟨by decide, (amenityMatchModes_c4 ["Pool", "Gym"] (by decide) exampleFacilityB).1⟩

/-- C5 — cache eligibility is a pure function of name, amenities and page:
a query with no name filter and no non-empty amenities list is eligible
exactly up to page 3, a filtered query exactly up to page 2, with the
boundary instances of the claim spelled out. -/
theorem cacheEligibility_c5 :
    (∀ (name : Option String) (amenities : Option (List String)) (page : Int),
      shouldCacheQuery name amenities page = true ↔
        ((strTruthy name = false ∧ listLenTruthy amenities = false) ∧ page ≤ 3) ∨
        ((strTruthy name = true ∨ listLenTruthy amenities = true) ∧ page ≤ 2)) ∧
    shouldCacheQuery none none 3 = true ∧
    shouldCacheQuery none none 4 = false ∧
    shouldCacheQuery (some "yoga") none 2 = true ∧
    shouldCacheQuery (some "yoga") none 3 = false ∧
    shouldCacheQuery none (some ["Pool"]) 2 = true ∧
    shouldCacheQuery none (some ["Pool"]) 3 = false := by
  refine ⟨?_, rfl, rfl, rfl, rfl, rfl, rfl⟩
  intro name amenities page
  cases hn : strTruthy name <;> cases ha : listLenTruthy amenities <;>
    simp [shouldCacheQuery, hn, ha]

/-- C6 — the effective page is clamped to at least 1 and the effective
limit to `[1, maxPageSize]`, and these clamped values are the ones the
executor's store window and metadata use and the ones serialized into the
cache parameters, whatever the raw descriptor held. -/
theorem clamping_c6 (cfg : ServiceConfig) (q : GetFacilitiesDto) (db : List StoredRecord)
    (hmax : 1 ≤ cfg.maxPageSize) :
    1 ≤ effPage q ∧
    1 ≤ effLimit cfg q ∧
    effLimit cfg q ≤ cfg.maxPageSize ∧
    (executeQuery cfg db q).meta.page = effPage q ∧
    (executeQuery cfg db q).meta.limit = effLimit cfg q ∧
    (executeQuery cfg db q).data.length ≤ (effLimit cfg q).toNat ∧
    ("page", ParamValue.num (effPage q)) ∈ listCacheParams cfg q ∧
    ("limit", ParamValue.num (effLimit cfg q)) ∈ listCacheParams cfg q := by
  refine ⟨le_max_left 1 _, le_min (le_max_left 1 _) hmax, min_le_right _ _, rfl, rfl,
    ?_, by simp [listCacheParams], by simp [listCacheParams]⟩
  simp only [executeQuery, storeFind]
  exact List.length_take_le _ _

/-- C6 witness: a raw descriptor asking for page −7 with limit 1000 is
clamped into range under the default configuration. -/
theorem clamping_c6_witness :
    (1 : Int) ≤ defaultConfig.maxPageSize ∧
    1 ≤ effPage extremeQuery ∧
    1 ≤ effLimit defaultConfig extremeQuery ∧
    effLimit defaultConfig extremeQuery ≤ defaultConfig.maxPageSize :=
  ⟨by decide, (clamping_c6 defaultConfig extremeQuery [] (by decide)).1,
   (clamping_c6 defaultConfig extremeQuery [] (by decide)).2.1,
   (clamping_c6 defaultConfig extremeQuery [] (by decide)).2.2.1⟩

/-- C7 — a sort field outside the allow-list is silently replaced by the
default field `name` while allow-listed fields pass through unchanged,
`asc` maps to direction 1 and any other order to −1, and the request as a
whole still succeeds (no error surfaces) whatever `sortBy` held. -/
theorem sortFallback_c7 :
    (∀ sortByField sortOrder : String, ALLOWED_SORT_FIELDS.contains sortByField = false →
      buildSortOptions sortByField sortOrder =
        { field := "name", direction := if sortOrder == "asc" then 1 else -1 }) ∧
    (∀ sortByField sortOrder : String, ALLOWED_SORT_FIELDS.contains sortByField = true →
      (buildSortOptions sortByField sortOrder).field = sortByField) ∧
    (∀ sortByField : String, (buildSortOptions sortByField "asc").direction = 1) ∧
    (∀ sortByField sortOrder : String, sortOrder ≠ "asc" →
      (buildSortOptions sortByField sortOrder).direction = -1) ∧
    (∀ (st : List (String × PaginatedResult)) (cfg : ServiceConfig)
        (db : List StoredRecord) (q : GetFacilitiesDto),
      ∃ out, getFacilities (healthyCache _) st cfg db q = .ok out) := by
  refine ⟨?_, ?_, ?_, ?_, ?_⟩
  · intro sb so h
    have h' : sb ∉ ALLOWED_SORT_FIELDS := by simpa using h
    simp [buildSortOptions, h']
  · intro sb so h
    have h' : sb ∈ ALLOWED_SORT_FIELDS := by simpa using h
    simp [buildSortOptions, h']
  · intro sb
    simp [buildSortOptions]
  · intro sb so h
    simp [buildSortOptions, h]
  · intro st cfg db q
    rw [getFacilities_healthy_eq]
    by_cases hsc : shouldCacheQuery q.name q.amenities (effPage q) = true
    · rw [if_pos hsc]
      cases assocGet st (readCacheKey cfg q) <;> exact ⟨_, rfl⟩
    · rw [if_neg hsc]
      exact ⟨_, rfl⟩

/-- C7 witness: the unrecognized field `invalidField` with order `desc`
falls back to sorting by `name`, descending. -/
theorem sortFallback_c7_witness :
    ALLOWED_SORT_FIELDS.contains "invalidField" = false ∧
    buildSortOptions "invalidField" "desc" = { field := "name", direction := -1 } :=
  ⟨rfl, by simpa using sortFallback_c7.1 "invalidField" "desc" rfl⟩

/-- C8 — a by-id lookup that misses the cache raises exactly the NotFound
error when the store has no matching facility — never an empty success —
and returns the projected facility (also writing it through) when the
store has one. -/
theorem notFoundContract_c8 (st : List (String × Facility)) (db : List StoredRecord)
    (id : String) (hmiss : assocGet st (facilityCacheKey id) = none) :
    (storeFindOne db id = none →
      getFacilityById (healthyCache _) st db id =
        .error (.notFound ("Facility with ID \"" ++ id ++ "\" not found"))) ∧
    (∀ r, storeFindOne db id = some r →
      getFacilityById (healthyCache _) st db id =
        .ok (projectPublic r, (facilityCacheKey id, projectPublic r) :: st)) := by
  constructor
  · intro habs
    simp [getFacilityById, healthyCache, hmiss, habs]
  · intro r hfound
    simp [getFacilityById, healthyCache, hmiss, hfound]

/-- C8 witness: with an empty cache, looking up the id `nonexistent` in a
store holding only `facility-001` yields the NotFound error. -/
theorem notFoundContract_c8_witness :
    assocGet ([] : List (String × Facility)) (facilityCacheKey "nonexistent") = none ∧
    storeFindOne [sampleRecord] "nonexistent" = none ∧
    getFacilityById (healthyCache _) [] [sampleRecord] "nonexistent" =
      .error (.notFound ("Facility with ID \"" ++ "nonexistent" ++ "\" not found")) :=
  ⟨rfl, rfl, (notFoundContract_c8 [] [sampleRecord] "nonexistent" rfl).1 rfl⟩

/-- C9 — a truthy name filter is translated into the escaped
case-insensitive regex clause; escaping turns every string, metacharacters
included, into a pattern of the literal fragment denoting exactly the
original characters, so the clause holds of a facility precisely when the
search term occurs case-insensitively as a substring of its name. -/
theorem nameFilter_c9 (s : String) (hs : s ≠ "") (f : Facility) :
    (buildMongoFilter (some s) none .all).nameClause = some ⟨escapeRegex s⟩ ∧
    parseLiteralPattern (escapeRegex s).data = some s.data ∧
    (matchesFilter (buildMongoFilter (some s) none .all) f = true ↔
      charsContain (lowerChars f.name.data) (lowerChars s.data) = true) := by
  have hne : s.isEmpty = false := by
    cases he : s.isEmpty
    · rfl
    · exact absurd ((String.isEmpty_iff s).mp he) hs
  refine ⟨by simp [buildMongoFilter, hne], parseLiteralPattern_escape s.data, ?_⟩
  simp [matchesFilter, buildMongoFilter, hne, regexSearchCI_escape]

/-- C9 witness: the facility named `City Fitness Central` is matched by
the query `name = "city"`. -/
theorem nameFilter_c9_witness :
    ("city" : String) ≠ "" ∧
    matchesFilter (buildMongoFilter (some "city") none .all) sampleRecord.pub = true :=
  ⟨by decide,
   (nameFilter_c9 "city" (by decide) sampleRecord.pub).2.2.mpr (by decide)⟩

/-- C10 — within one cache-eligible listing request the write-site key
equals the read-site key (same prefix, same parameter set), so the entry
written after a miss is found by the next request with the identical
descriptor: re-running the same request against the updated cache state
hits and returns the very same result and state. -/
theorem readWriteKeyAgree_c10 (cfg : ServiceConfig) (q : GetFacilitiesDto)
    (st : List (String × PaginatedResult)) (db : List StoredRecord)
    (r : PaginatedResult) (st' : List (String × PaginatedResult))
    (hsc : shouldCacheQuery q.name q.amenities (effPage q) = true)
    (hmiss : assocGet st (readCacheKey cfg q) = none)
    (hrun : getFacilities (healthyCache _) st cfg db q = .ok (r, st')) :
    writeCacheKey cfg q = readCacheKey cfg q ∧
    st' = (writeCacheKey cfg q, r) :: st ∧
    getFacilities (healthyCache _) st' cfg db q = .ok (r, st') := by
  rw [getFacilities_healthy_eq, if_pos hsc, hmiss] at hrun
  obtain ⟨hr, hst⟩ := Prod.mk.injEq .. ▸ Except.ok.injEq .. ▸ hrun
  refine ⟨rfl, by rw [← hst, hr], ?_⟩
  rw [getFacilities_healthy_eq, if_pos hsc, ← hst]
  have hkey : writeCacheKey cfg q = readCacheKey cfg q := rfl
  rw [hkey, assocGet_cons_self, hr]

/-- C10 witness: a concrete miss-then-write run of the default descriptor
from the empty cache, after which the identical request hits. -/
theorem readWriteKeyAgree_c10_witness :
    shouldCacheQuery emptyQuery.name emptyQuery.amenities (effPage emptyQuery) = true ∧
    writeCacheKey defaultConfig emptyQuery = readCacheKey defaultConfig emptyQuery ∧
    getFacilities (healthyCache _)
        ((writeCacheKey defaultConfig emptyQuery,
          executeQuery defaultConfig [sampleRecord] emptyQuery) :: [])
        defaultConfig [sampleRecord] emptyQuery =
      .ok (executeQuery defaultConfig [sampleRecord] emptyQuery,
        (writeCacheKey defaultConfig emptyQuery,
          executeQuery defaultConfig [sampleRecord] emptyQuery) :: []) := by
  have h := readWriteKeyAgree_c10 defaultConfig emptyQuery [] [sampleRecord]
    (executeQuery defaultConfig [sampleRecord] emptyQuery)
    ((writeCacheKey defaultConfig emptyQuery,
      executeQuery defaultConfig [sampleRecord] emptyQuery) :: [])
    rfl rfl rfl
  exact ⟨rfl, h.1, h.2.2⟩

end FacilitySearch
